import Mathlib

/-!
Verification of the content-automation pipeline (RSS ingestion, publication
ledger, subscriber registry, weekly newsletter) against its specification.

The Python source is shallowly embedded: MySQL DATETIME values are modelled
as integer timestamps (seconds), table states as lists of row structures,
and each model method as a pure function from state to state.  External
HTTP calls (feed download, LLM completion) are modelled by passing their
response as an `Option` argument: `none` is a failed call.
-/

namespace ContentAutomation

/-! ## RSS aggregator (services/rss_aggregator.py) -/

/-- A parsed feed entry as `feedparser` hands it to `_fetch_feed`:
every field the aggregator reads is optional on the wire.  The
`*Parsed` fields are the candidate date fields (`published_parsed`,
`updated_parsed`, `created_parsed`), already converted to a timestamp;
`none` models an absent or empty field.  `summaryText` holds the
plain text of the summary/description after markup stripping (the
stripping itself is done by an external HTML parser). -/
structure Entry where
  title : Option String
  link : Option String
  summaryText : Option String
  descriptionText : Option String
  publishedParsed : Option Int
  updatedParsed : Option Int
  createdParsed : Option Int
  author : Option String
  tagTerms : List String
  deriving DecidableEq, Repr

/-- The `Article` dataclass produced by the aggregator. -/
structure Article where
  title : String
  url : String
  summary : String
  publishedDate : Int
  source : String
  author : Option String
  tags : List String
  deriving DecidableEq, Repr

/-- A feed document: its own optional title and its entries. -/
structure Feed where
  title : Option String
  url : String
  entries : List Entry
  deriving DecidableEq, Repr

/-- `RSSAggregator._parse_date`: try `published_parsed`, `updated_parsed`,
`created_parsed` in order; fall back to the current time if none is set. -/
def parseDate (e : Entry) (now : Int) : Int :=
  match e.publishedParsed with
  | some t => t
  | none =>
    match e.updatedParsed with
    | some t => t
    | none =>
      match e.createdParsed with
      | some t => t
      | none => now

/-- The length-limiting step of `RSSAggregator._clean_html` applied to the
already markup-stripped text: empty input maps to the empty string, text over
500 characters is hard-truncated to 497 characters plus an ellipsis. -/
def cleanHtml (text : String) : String :=
  if text.isEmpty then ""
  else if text.length > 500 then (text.take 497) ++ "..." else text

/-- `RSSAggregator._extract_tags`: collect tag terms and deduplicate
(`list(set(tags))`). -/
def extractTags (e : Entry) : List String :=
  e.tagTerms.dedup

/-- The `Article(...)` construction inside `RSSAggregator._fetch_feed`. -/
def entryToArticle (e : Entry) (feedTitle : String) (now : Int) : Article :=
  { title := e.title.getD "No Title"
    url := e.link.getD ""
    summary := cleanHtml ((e.summaryText.getD (e.descriptionText.getD "")))
    publishedDate := parseDate e now
    source := feedTitle
    author := e.author
    tags := extractTags e }

/-- `RSSAggregator._fetch_feed`: parse each entry's date, skip entries
whose date is before the cutoff, and build `Article` records. -/
def fetchFeed (f : Feed) (cutoff : Int) (now : Int) : List Article :=
  let feedTitle := f.title.getD f.url
  (f.entries.filter (fun e => decide (cutoff ≤ parseDate e now))).map
    (fun e => entryToArticle e feedTitle now)

/-- The comparison `fetch_articles` sorts with: `published_date`
descending (so `a` may precede `b` iff `b`'s date is `≤` `a`'s). -/
def dateDesc (a b : Article) : Bool :=
  decide (b.publishedDate ≤ a.publishedDate)

/-- The url-deduplication loop of `fetch_articles`: walk the list keeping
the first occurrence of each url (`seen_urls` accumulates visited urls). -/
def dedupByUrl : List String → List Article → List Article
  | _, [] => []
  | seen, a :: rest =>
    if a.url ∈ seen then dedupByUrl seen rest
    else a :: dedupByUrl (a.url :: seen) rest

/-- All articles collected across the feeds by the loop at the top of
`fetch_articles`, before sorting/deduplication (a feed whose download
fails is simply absent from `feeds`). -/
def collectArticles (feeds : List Feed) (now : Int) (maxAgeHours : Int) : List Article :=
  (feeds.map (fun f => fetchFeed f (now - 3600 * maxAgeHours) now)).flatten

/-- `RSSAggregator.fetch_articles`: collect each feed's entries newer than
`now - max_age_hours`, sort newest first, deduplicate by url (first
occurrence wins), truncate to `max_articles`. -/
def fetchArticles (feeds : List Feed) (now : Int) (maxAgeHours : Int)
    (maxArticles : Nat) : List Article :=
  (dedupByUrl [] ((collectArticles feeds now maxAgeHours).mergeSort dateDesc)).take maxArticles

/-! ## Database layer (models/database.py)

Table states are lists of rows in insertion order together with the next
`AUTO_INCREMENT` value (MySQL starts it at 1).  `cursor.lastrowid` is the
fresh id on a plain insert and `0` when `ON DUPLICATE KEY UPDATE` took the
update branch; the Python `lastrowid or lookup` idiom is modelled by an
explicit test against `0`.  `cursor.rowcount` of an `UPDATE` is modelled
as the number of matched rows. -/

/-- A row of the `published_articles` table. -/
structure ArticleRow where
  id : Nat
  title : String
  sourceUrl : String
  wordpressPostId : Option Int
  wordpressUrl : Option String
  publishedAt : Int
  sourceName : Option String
  tags : Option String
  deriving DecidableEq, Repr

/-- The `published_articles` table state. -/
structure LedgerState where
  rows : List ArticleRow
  nextId : Nat
  deriving DecidableEq, Repr

/-- A row of the `newsletter_subscribers` table. -/
structure SubscriberRow where
  id : Nat
  email : String
  name : Option String
  subscribedAt : Int
  confirmed : Bool
  confirmationToken : String
  unsubscribeToken : String
  active : Bool
  deriving DecidableEq, Repr

/-- The `newsletter_subscribers` table state. -/
structure RegistryState where
  rows : List SubscriberRow
  nextId : Nat
  deriving DecidableEq, Repr

/-- `Database.get_connection`: run a transaction body against the state;
commit the new state on success, roll back to the initial state and
re-raise on any failure. -/
def runConnection {St E α : Type} (σ : St) (body : St → Except E (St × α)) :
    Except E α × St :=
  match body σ with
  | .ok (σ', a) => (.ok a, σ')
  | .error e => (.error e, σ)

/-- `ArticleModel.get_article_by_url`: `SELECT * ... WHERE source_url = %s`,
`fetchone()` — the first matching row, or `none`. -/
def getArticleByUrl (s : LedgerState) (url : String) : Option ArticleRow :=
  s.rows.find? (fun r => r.sourceUrl == url)

/-- `ArticleModel.is_article_published`. -/
def isArticlePublished (s : LedgerState) (url : String) : Bool :=
  (getArticleByUrl s url).isSome

/-- `','.join(tags) if tags else None`: `None` or an empty list gives SQL
`NULL`, otherwise the comma-joined string. -/
def tagsToStr (tags : Option (List String)) : Option String :=
  match tags with
  | some ts => if ts.isEmpty then none else some (String.intercalate "," ts)
  | none => none

/-- `ArticleModel.add_article`: `INSERT ... ON DUPLICATE KEY UPDATE
wordpress_post_id = VALUES(...), wordpress_url = VALUES(...)` keyed by the
unique `source_url`, then `cursor.lastrowid or get_article_by_url(url)['id']`.
Returns the new state and the returned article id (`none` models the
unreachable case where the post-upsert lookup finds nothing). -/
def addArticle (s : LedgerState) (title : String) (sourceUrl : String)
    (wordpressPostId : Option Int) (wordpressUrl : Option String)
    (sourceName : Option String) (tags : Option (List String)) (now : Int) :
    LedgerState × Option Nat :=
  let upd : LedgerState × Nat :=
    match s.rows.find? (fun r => r.sourceUrl == sourceUrl) with
    | none =>
      let row : ArticleRow :=
        { id := s.nextId, title := title, sourceUrl := sourceUrl
          wordpressPostId := wordpressPostId, wordpressUrl := wordpressUrl
          publishedAt := now, sourceName := sourceName, tags := tagsToStr tags }
      (⟨s.rows ++ [row], s.nextId + 1⟩, s.nextId)
    | some _ =>
      let rows' := s.rows.map (fun r =>
        if r.sourceUrl == sourceUrl then
          { r with wordpressPostId := wordpressPostId, wordpressUrl := wordpressUrl }
        else r)
      (⟨rows', s.nextId⟩, 0)
  let s' := upd.1
  let lastrowid := upd.2
  let articleId :=
    if lastrowid ≠ 0 then some lastrowid
    else (getArticleByUrl s' sourceUrl).map (·.id)
  (s', articleId)

/-- `ArticleModel.get_recent_articles`: rows with
`published_at > DATE_SUB(NOW(), INTERVAL days DAY)`, newest first. -/
def getRecentArticles (s : LedgerState) (days : Int) (now : Int) : List ArticleRow :=
  (s.rows.filter (fun r => decide (now - 86400 * days < r.publishedAt))).mergeSort
    (fun a b => decide (b.publishedAt ≤ a.publishedAt))

/-- `SubscriberModel.get_subscriber_by_email`. -/
def getSubscriberByEmail (s : RegistryState) (email : String) : Option SubscriberRow :=
  s.rows.find? (fun r => r.email == email)

/-- `SubscriberModel.add_subscriber`: `INSERT ... ON DUPLICATE KEY UPDATE
name = VALUES(name)`, then
`cursor.lastrowid or get_subscriber_by_email(email)['id']`.  The table
has two unique keys, `email` and `unsubscribe_token` (database.py:53,58):
the duplicate branch fires when the insert conflicts with *either* key,
and `ON DUPLICATE KEY UPDATE` rewrites only the name of the conflicting
row (the first such row in table order).  `lastrowid` is 0 on that
branch, so the returned id comes from the by-email lookup — which finds
nothing when the conflict was on the token of a different email; `none`
models the program's `None['id']` `TypeError` there.  The token arguments
are the values after `confirmation_token or secrets.token_urlsafe(32)`
resolved (supplied or freshly generated). -/
def addSubscriber (s : RegistryState) (email : String) (name : Option String)
    (confirmationToken : String) (unsubscribeToken : String) (now : Int) :
    RegistryState × Option Nat :=
  let upd : RegistryState × Nat :=
    match s.rows.find? (fun r =>
        r.email == email || r.unsubscribeToken == unsubscribeToken) with
    | none =>
      let row : SubscriberRow :=
        { id := s.nextId, email := email, name := name, subscribedAt := now
          confirmed := false, confirmationToken := confirmationToken
          unsubscribeToken := unsubscribeToken, active := true }
      (⟨s.rows ++ [row], s.nextId + 1⟩, s.nextId)
    | some conflict =>
      let rows' := s.rows.map (fun r =>
        if r == conflict then { r with name := name } else r)
      (⟨rows', s.nextId⟩, 0)
  let s' := upd.1
  let lastrowid := upd.2
  let subscriberId :=
    if lastrowid ≠ 0 then some lastrowid
    else (getSubscriberByEmail s' email).map (·.id)
  (s', subscriberId)

/-- `SubscriberModel.confirm_subscriber`: `UPDATE ... SET confirmed = TRUE
WHERE confirmation_token = %s`; returns `rowcount > 0`.  The connection is
a plain `pymysql.connect` without `CLIENT.FOUND_ROWS`, so MySQL reports
*changed* rows: a matching row counts only if its `confirmed` flag
actually flips, i.e. was still false. -/
def confirmSubscriber (s : RegistryState) (token : String) : RegistryState × Bool :=
  let rows' := s.rows.map (fun r =>
    if r.confirmationToken == token then { r with confirmed := true } else r)
  (⟨rows', s.nextId⟩,
   s.rows.any (fun r => r.confirmationToken == token && !r.confirmed))

/-- `SubscriberModel.unsubscribe`: `UPDATE ... SET active = FALSE
WHERE unsubscribe_token = %s`; returns `rowcount > 0` — again changed
rows: a matching row counts only if it was still active. -/
def unsubscribe (s : RegistryState) (token : String) : RegistryState × Bool :=
  let rows' := s.rows.map (fun r =>
    if r.unsubscribeToken == token then { r with active := false } else r)
  (⟨rows', s.nextId⟩,
   s.rows.any (fun r => r.unsubscribeToken == token && r.active))

/-- The projection `SELECT id, email, name, subscribed_at` returns. -/
structure SubscriberView where
  id : Nat
  email : String
  name : Option String
  subscribedAt : Int
  deriving DecidableEq, Repr

/-- The projection applied to a subscriber row. -/
def SubscriberRow.view (r : SubscriberRow) : SubscriberView :=
  { id := r.id, email := r.email, name := r.name, subscribedAt := r.subscribedAt }

/-- `SubscriberModel.get_active_subscribers`:
`WHERE active = TRUE AND confirmed = TRUE`, in table order. -/
def getActiveSubscribers (s : RegistryState) : List SubscriberView :=
  (s.rows.filter (fun r => r.active && r.confirmed)).map SubscriberRow.view

/-! ## AI content generator (services/ai_content_generator.py)

Each method wraps one external chat-completion call in `try/except`.  The
call's outcome is passed in as `Option String` (`none` = the call raised).
The result type `Except Unit _` separates the two exits: `.ok` is a
returned value, `.error` is a re-raised exception. -/

/-- The hardcoded fallback of `generate_newsletter_intro`. -/
def defaultNewsletterIntro : String :=
  "Welcome to this week\'s edition of the Betania Tech Newsletter! Here are the top 5 stories you shouldn\'t miss."

/-- The hardcoded fallback of `generate_practice_task`. -/
def defaultPracticeTask : String :=
  "Weekly Practice: Take a small piece of code you wrote recently and refactor it using a modern .NET feature (such as pattern matching, records, or LINQ). Focus on making the code easier to read and reason about, and write down what changed and why."

/-- `Config.BLOG_CATEGORIES`. -/
def blogCategories : List String :=
  [".NET Development", "Performance & Optimization", "Architecture & Patterns",
   "Cloud & DevOps"]

/-- `AIContentGenerator.generate_newsletter_intro`: return the model text
on success; on failure return the fixed default intro (no re-raise). -/
def generateNewsletterIntro (response : Option String) : Except Unit String :=
  match response with
  | some content => .ok content.trim
  | none => .ok defaultNewsletterIntro

/-- `AIContentGenerator.generate_practice_task`: return the model text on
success; on failure return the fixed default task (no re-raise). -/
def generatePracticeTask (response : Option String) : Except Unit String :=
  match response with
  | some content => .ok content.trim
  | none => .ok defaultPracticeTask

/-- `AIContentGenerator.generate_blog_post`: on failure the exception is
logged and re-raised; on success the parsed response is returned. -/
def generateBlogPost (response : Option String) : Except Unit String :=
  match response with
  | some content => .ok content
  | none => .error ()

/-- `AIContentGenerator.generate_linkedin_post`: on failure the exception
is logged and re-raised. -/
def generateLinkedinPost (response : Option String) : Except Unit String :=
  match response with
  | some content => .ok content.trim
  | none => .error ()

/-- Parsing of the ranking response: `int(num.strip()) - 1` for each
comma-separated piece; any unparsable piece raises (handled by the caller's
`except`, giving `none` here). -/
def parseRankingIndices (content : String) : Option (List Int) :=
  let pieces := (content.trim.splitOn ",").map (fun p => p.trim.toInt?)
  if pieces.all (·.isSome) then some (pieces.map (fun p => p.getD 0 - 1))
  else none

/-- `AIContentGenerator.rank_articles_for_newsletter`: select the articles
at the model-returned indices (0-indexed, out-of-range dropped), truncated
to `top_n`; any failure falls back to the first `top_n` articles. -/
def rankArticlesForNewsletter (response : Option String) (articles : List Article)
    (topN : Nat) : Except Unit (List Article) :=
  match response with
  | none => .ok (articles.take topN)
  | some content =>
    match parseRankingIndices content with
    | none => .ok (articles.take topN)
    | some idxs =>
      let selected := (idxs.filter (fun i => decide (0 ≤ i) && decide (i < (articles.length : Int)))).filterMap
        (fun i => articles.get? i.toNat)
      .ok (selected.take topN)

/-- `AIContentGenerator.suggest_category`: the model's answer if it is one
of `Config.BLOG_CATEGORIES`, otherwise the default ".NET Development";
on failure the same default (no re-raise). -/
def suggestCategory (response : Option String) : Except Unit String :=
  match response with
  | none => .ok ".NET Development"
  | some content =>
    let category := content.trim
    if blogCategories.contains category then .ok category
    else .ok ".NET Development"

/-- The external generator calls of the system, one constructor per
`AIContentGenerator` method. -/
inductive GeneratorStep where
  | blogPost
  | linkedinPost
  | rankArticles
  | newsletterIntro
  | practiceTask
  | categorySuggestion
  deriving DecidableEq

instance : Fintype GeneratorStep :=
  ⟨⟨{.blogPost, .linkedinPost, .rankArticles, .newsletterIntro, .practiceTask,
     .categorySuggestion}, by decide⟩, fun s => by cases s <;> decide⟩

/-- Whether a step still yields a value (rather than re-raising) when its
external call fails: the step's defined graceful-degradation behaviour. -/
def yieldsValueOnFailure : GeneratorStep → Bool
  | .blogPost => (generateBlogPost none).isOk
  | .linkedinPost => (generateLinkedinPost none).isOk
  | .rankArticles => (rankArticlesForNewsletter none [] 5).isOk
  | .newsletterIntro => (generateNewsletterIntro none).isOk
  | .practiceTask => (generatePracticeTask none).isOk
  | .categorySuggestion => (suggestCategory none).isOk

/-! ## Configuration and weekly pipeline cap (config.py,
functions/weekly_newsletter/__init__.py) -/

/-- `Config.MAX_NEWSLETTER_ARTICLES = int(os.getenv("MAX_NEWSLETTER_ARTICLES", "3"))`:
the environment value (already parsed by `int`) when the variable is set,
else the default literal "3", which `int` parses to 3. -/
def maxNewsletterArticles (env : Option Int) : Int :=
  env.getD 3

/-- The `top_n` the weekly newsletter pipeline passes to the ranking step:
`ai_generator.rank_articles_for_newsletter(..., top_n=Config.MAX_NEWSLETTER_ARTICLES)`. -/
def weeklyNewsletterTopN (env : Option Int) : Int :=
  maxNewsletterArticles env

/-! ## Concrete states used as witnesses -/

/-- A one-subscriber registry: unconfirmed, active, tokens "tok"/"unsub". -/
def regW : RegistryState :=
  ⟨[⟨1, "a@x.com", none, 0, false, "tok", "unsub", true⟩], 2⟩

/-! ## Theorems -/

/-- C6: `active_subscribers()` returns exactly the rows with
`confirmed = true` and `active = true`: a (projected) row is in the result
iff a table row with both flags true projects to it; rows with either flag
false are excluded. -/
theorem getActiveSubscribers_complete_and_sound (s : RegistryState) (v : SubscriberView) :
    v ∈ getActiveSubscribers s ↔
      ∃ r ∈ s.rows, r.confirmed = true ∧ r.active = true ∧ r.view = v := by
  unfold getActiveSubscribers
  simp only [List.mem_map, List.mem_filter, Bool.and_eq_true]
  constructor
  · rintro ⟨r, ⟨hr, ha, hc⟩, hv⟩
    exact ⟨r, hr, hc, ha, hv⟩
  · rintro ⟨r, hr, hc, ha, hv⟩
    exact ⟨r, ⟨hr, ha, hc⟩, hv⟩

/-- C7 counterexample: the newsletter intro and practice task are not the
only generator steps with a defined graceful-degradation value — the
category-suggestion step also yields a value (the default category) when
its external call fails. -/
theorem generator_fallback_only_intro_task_false :
    ¬ (∀ s : GeneratorStep, yieldsValueOnFailure s = true ↔
        (s = .newsletterIntro ∨ s = .practiceTask)) := by
  intro h
  have h1 : yieldsValueOnFailure .categorySuggestion = true := by decide
  rcases (h .categorySuggestion).mp h1 with h2 | h2 <;> exact absurd h2 (by decide)

/-- C7 amended: the intro and practice task fall back to fixed default
strings on failure, but four (not two) generator steps have a defined
graceful-degradation value: intro, practice task, article ranking (falls
back to the first top-N articles) and category suggestion (falls back to
".NET Development"); blog-post and LinkedIn-post generation re-raise. -/
theorem generator_fallback_steps :
    (generateNewsletterIntro none = .ok defaultNewsletterIntro
      ∧ generatePracticeTask none = .ok defaultPracticeTask)
    ∧ (∀ s : GeneratorStep, yieldsValueOnFailure s = true ↔
        (s = .newsletterIntro ∨ s = .practiceTask ∨ s = .rankArticles ∨
         s = .categorySuggestion)) := by
  refine ⟨⟨rfl, rfl⟩, ?_⟩
  intro s
  cases s <;> simp [yieldsValueOnFailure, generateBlogPost, generateLinkedinPost,
    rankArticlesForNewsletter, generateNewsletterIntro, generatePracticeTask,
    suggestCategory, Except.isOk, Except.toBool]

/-- C8 counterexample: with no explicit configuration, the weekly
pipeline's top-N (`Config.MAX_NEWSLETTER_ARTICLES`, environment default
string "3") is 3, not 5. -/
theorem weeklyNewsletterTopN_default_not_five :
    weeklyNewsletterTopN none ≠ 5 := by
  decide

/-- C8 amended: the weekly pipeline caps the ranked newsletter articles at
`Config.MAX_NEWSLETTER_ARTICLES`, whose default value is 3 when no
explicit configuration is supplied (the ranking function's own `top_n`
parameter default of 5 is never used by the pipeline); and the ranking
step's result never exceeds the cap it is given. -/
theorem weeklyNewsletterTopN_default_three :
    weeklyNewsletterTopN none = 3
    ∧ ∀ (response : Option String) (articles : List Article) (topN : Nat)
        (selected : List Article),
        rankArticlesForNewsletter response articles topN = .ok selected →
        selected.length ≤ topN := by
  refine ⟨by decide, ?_⟩
  intro response articles topN selected h
  match response with
  | none =>
    simp only [rankArticlesForNewsletter, Except.ok.injEq] at h
    subst h
    exact List.length_take_le _ _
  | some content =>
    simp only [rankArticlesForNewsletter] at h
    rcases hp : parseRankingIndices content with _ | idxs <;> rw [hp] at h <;>
      simp only [Except.ok.injEq] at h <;> subst h <;> exact List.length_take_le _ _

/-- C8 amended, witness: ranking with a failed external call and an empty
article list under the default cap 3 returns at most 3 articles. -/
theorem weeklyNewsletterTopN_default_three_witness :
    weeklyNewsletterTopN none = 3 ∧ ([] : List Article).length ≤ 3 :=
  ⟨weeklyNewsletterTopN_default_three.1,
   weeklyNewsletterTopN_default_three.2 none [] 3 [] rfl⟩

/-- C9: a persistence-layer failure inside `get_connection` rolls the
whole operation back (the committed state is the initial state, unchanged)
and the failure is propagated to the caller; reads that find nothing
return an empty list (`get_recent_articles`) or `none`
(`get_subscriber_by_email`, `get_article_by_url`), never an error. -/
theorem persistence_failure_rollback_and_empty_reads :
    (∀ (St E α : Type) (σ : St) (body : St → Except E (St × α)) (e : E),
        body σ = .error e → runConnection σ body = (.error e, σ))
    ∧ (∀ (s : LedgerState) (days now : Int),
        (∀ r ∈ s.rows, ¬ (now - 86400 * days < r.publishedAt)) →
        getRecentArticles s days now = [])
    ∧ (∀ (s : RegistryState) (email : String),
        (∀ r ∈ s.rows, r.email ≠ email) → getSubscriberByEmail s email = none)
    ∧ (∀ (s : LedgerState) (url : String),
        (∀ r ∈ s.rows, r.sourceUrl ≠ url) → getArticleByUrl s url = none) := by
  refine ⟨?_, ?_, ?_, ?_⟩
  · intro St E α σ body e h
    unfold runConnection
    rw [h]
  · intro s days now h
    unfold getRecentArticles
    rw [List.filter_eq_nil_iff.mpr fun r hr => by simpa using h r hr]
    exact List.mergeSort_nil
  · intro s email h
    exact List.find?_eq_none.mpr fun r hr => by simpa using h r hr
  · intro s url h
    exact List.find?_eq_none.mpr fun r hr => by simpa using h r hr

/-- C9 witness: a failing transaction body leaves a concrete state
untouched and propagates its error, and the three reads return empty
results on concrete states with no matching row. -/
theorem persistence_failure_rollback_and_empty_reads_witness :
    runConnection (0 : Nat) (fun _ => (.error 7 : Except Nat (Nat × Nat))) = (.error 7, 0)
    ∧ getRecentArticles ⟨[], 1⟩ 7 0 = []
    ∧ getSubscriberByEmail ⟨[], 1⟩ ("a@x.com") = none
    ∧ getArticleByUrl ⟨[], 1⟩ ("http://x/1") = none :=
  ⟨persistence_failure_rollback_and_empty_reads.1 Nat Nat Nat 0 _ 7 rfl,
   persistence_failure_rollback_and_empty_reads.2.1 ⟨[], 1⟩ 7 0 (by simp),
   persistence_failure_rollback_and_empty_reads.2.2.1 ⟨[], 1⟩ ("a@x.com") (by simp),
   persistence_failure_rollback_and_empty_reads.2.2.2 ⟨[], 1⟩ ("http://x/1") (by simp)⟩

/-- C10: an entry with none of the candidate date fields
(`published_parsed`, `updated_parsed`, `created_parsed`) is assigned the
current instant as its publish timestamp, and for every positive
`max_age_hours` such an entry passes the age filter: its article is in the
feed's fetched output. -/
theorem parseDate_fallback_now_never_filtered (e : Entry) (f : Feed)
    (now maxAgeHours : Int)
    (h1 : e.publishedParsed = none) (h2 : e.updatedParsed = none)
    (h3 : e.createdParsed = none) (hpos : 0 < maxAgeHours)
    (hmem : e ∈ f.entries) :
    parseDate e now = now ∧
      entryToArticle e (f.title.getD f.url) now ∈
        fetchFeed f (now - 3600 * maxAgeHours) now := by
  have hd : parseDate e now = now := by
    simp [parseDate, h1, h2, h3]
  refine ⟨hd, ?_⟩
  unfold fetchFeed
  apply List.mem_map_of_mem
  apply List.mem_filter.mpr
  refine ⟨hmem, ?_⟩
  rw [hd]
  simp only [decide_eq_true_eq]
  omega

/-- C10 witness: a concrete dateless entry in a one-entry feed is stamped
with the current time and appears in the fetched articles for a 24-hour
window. -/
theorem parseDate_fallback_now_never_filtered_witness :
    parseDate ⟨none, some ("http://x/1"), none, none, none, none, none, none, []⟩ 1000 = 1000
    ∧ entryToArticle ⟨none, some ("http://x/1"), none, none, none, none, none, none, []⟩
        ((some ("F")).getD ("http://feed")) 1000 ∈
      fetchFeed ⟨some ("F"), ("http://feed"),
        [⟨none, some ("http://x/1"), none, none, none, none, none, none, []⟩]⟩
        (1000 - 3600 * 24) 1000 :=
  parseDate_fallback_now_never_filtered _ _ 1000 24 rfl rfl rfl (by decide)
    (List.mem_singleton.mpr rfl)

/-- C1 counterexample: re-confirming an already-consumed token does not
still return true.  On the one-row registry whose (unconfirmed) row has
confirmation token "tok", the first `confirm("tok")` consumes the token;
the second `confirm("tok")` re-applies an update that changes nothing, so
the changed-rows count is 0 and the call returns false — not true as the
claim states. -/
theorem confirm_reconfirm_returns_false :
    (confirmSubscriber (confirmSubscriber regW "tok").1 "tok").2 = false := by
  decide

/-- C1 amended: `confirm(t)` for a token `t` matching a still-unconfirmed
row returns true and sets `confirmed = true` on every matching row;
calling it again with the already-consumed token leaves the state
unchanged (`confirmed` stays true) but returns false, because MySQL
reports changed rows and the repeated update changes nothing; `confirm(u)`
for a token matching no row returns false and leaves the state
unchanged. -/
theorem confirmSubscriber_spec (s : RegistryState) (t : String)
    (hmatch : ∃ r ∈ s.rows, r.confirmationToken = t ∧ r.confirmed = false) :
    ((confirmSubscriber s t).2 = true
      ∧ ∀ r ∈ (confirmSubscriber s t).1.rows, r.confirmationToken = t → r.confirmed = true)
    ∧ ((confirmSubscriber (confirmSubscriber s t).1 t).2 = false
      ∧ (confirmSubscriber (confirmSubscriber s t).1 t).1 = (confirmSubscriber s t).1)
    ∧ (∀ u : String, (∀ r ∈ s.rows, r.confirmationToken ≠ u) →
        confirmSubscriber s u = (s, false)) := by
  refine ⟨⟨?_, ?_⟩, ⟨?_, ?_⟩, ?_⟩
  · simp only [confirmSubscriber, List.any_eq_true]
    rcases hmatch with ⟨r, hr, ht, hc⟩
    exact ⟨r, hr, by simp [ht, hc]⟩
  · intro r hr hrt
    simp only [confirmSubscriber, List.mem_map] at hr
    rcases hr with ⟨r0, hr0, rfl⟩
    by_cases hbeq : (r0.confirmationToken == t) = true
    · simp [hbeq]
    · rw [Bool.not_eq_true] at hbeq
      simp only [hbeq, Bool.false_eq_true, if_false] at hrt
      exact absurd hrt (beq_eq_false_iff_ne.mp hbeq)
  · simp only [confirmSubscriber]
    refine List.any_eq_false.mpr ?_
    intro r hr
    rcases List.mem_map.mp hr with ⟨r0, _, rfl⟩
    by_cases hbeq : (r0.confirmationToken == t) = true
    · simp [hbeq]
    · rw [Bool.not_eq_true] at hbeq
      simp [hbeq]
  · simp only [confirmSubscriber, RegistryState.mk.injEq, List.map_map]
    refine ⟨?_, trivial⟩
    apply List.map_congr_left
    intro r _
    simp only [Function.comp_apply]
    by_cases hbeq : (r.confirmationToken == t) = true
    · simp [hbeq]
    · rw [Bool.not_eq_true] at hbeq
      simp [hbeq]
  · intro u hu
    have hrows : (s.rows.map fun r =>
        if r.confirmationToken == u then { r with confirmed := true } else r) = s.rows := by
      conv_rhs => rw [← List.map_id s.rows]
      exact List.map_congr_left fun r hr => by
        simp [beq_eq_false_iff_ne.mpr (hu r hr)]
    have hany : (s.rows.any fun r => r.confirmationToken == u && !r.confirmed) = false :=
      List.any_eq_false.mpr fun r hr => by
        simp [beq_eq_false_iff_ne.mpr (hu r hr)]
    simp only [confirmSubscriber, hrows, hany]

/-- C1 amended, witness: on a one-row registry whose unconfirmed row has
confirmation token "tok", confirming "tok" returns true, re-confirming
returns false, and confirming the unknown token "bad" returns false and
changes nothing. -/
theorem confirmSubscriber_spec_witness :
    (confirmSubscriber regW "tok").2 = true
    ∧ (confirmSubscriber (confirmSubscriber regW "tok").1 "tok").2 = false
    ∧ confirmSubscriber regW "bad" = (regW, false) :=
  ⟨(confirmSubscriber_spec regW "tok" (by decide)).1.1,
   (confirmSubscriber_spec regW "tok" (by decide)).2.1.1,
   (confirmSubscriber_spec regW "tok" (by decide)).2.2 "bad" (by decide)⟩

/-- C5: `add_subscriber` called twice with the same email (fresh in the
initial state) and different names/tokens leaves exactly one row for that
email: its name is the second call's, its tokens are the first call's (the
second call's tokens are discarded), its confirmed/active state is not
reset (still the insert defaults false/true), and both calls return the
id of that row.  The supplied-or-generated unsubscribe tokens are assumed
fresh (no collision with another row's unique `unsubscribe_token`), as
`secrets.token_urlsafe(32)` generation ensures. -/
theorem addSubscriber_upsert_spec (s0 : RegistryState) (email : String)
    (n1 n2 : Option String) (c1 u1 c2 u2 : String) (now1 now2 : Int)
    (hfresh : ∀ r ∈ s0.rows, r.email ≠ email)
    (hu1 : ∀ r ∈ s0.rows, r.unsubscribeToken ≠ u1)
    (hu2 : ∀ r ∈ s0.rows, r.unsubscribeToken ≠ u2)
    (hid : 0 < s0.nextId) :
    ((addSubscriber (addSubscriber s0 email n1 c1 u1 now1).1 email n2 c2 u2 now2).1.rows.filter
        (fun r => r.email == email) =
      [{ id := s0.nextId, email := email, name := n2, subscribedAt := now1,
         confirmed := false, confirmationToken := c1, unsubscribeToken := u1,
         active := true }])
    ∧ (addSubscriber s0 email n1 c1 u1 now1).2 = some s0.nextId
    ∧ (addSubscriber (addSubscriber s0 email n1 c1 u1 now1).1 email n2 c2 u2 now2).2 =
        some s0.nextId := by
  have hne0 : s0.nextId ≠ 0 := Nat.pos_iff_ne_zero.mp hid
  have hfind0 : s0.rows.find? (fun r =>
      r.email == email || r.unsubscribeToken == u1) = none :=
    List.find?_eq_none.mpr fun r hr => by
      simp only [Bool.or_eq_true, beq_iff_eq]
      rintro (h | h)
      · exact hfresh r hr h
      · exact hu1 r hr h
  set row1 : SubscriberRow :=
    { id := s0.nextId, email := email, name := n1, subscribedAt := now1,
      confirmed := false, confirmationToken := c1, unsubscribeToken := u1,
      active := true } with hrow1
  have h1 : addSubscriber s0 email n1 c1 u1 now1 =
      (⟨s0.rows ++ [row1], s0.nextId + 1⟩, some s0.nextId) := by
    simp [addSubscriber, hfind0, hne0, hrow1]
  set row2 : SubscriberRow :=
    { id := s0.nextId, email := email, name := n2, subscribedAt := now1,
      confirmed := false, confirmationToken := c1, unsubscribeToken := u1,
      active := true } with hrow2
  have hfind0' : s0.rows.find? (fun r =>
      r.email == email || r.unsubscribeToken == u2) = none :=
    List.find?_eq_none.mpr fun r hr => by
      simp only [Bool.or_eq_true, beq_iff_eq]
      rintro (h | h)
      · exact hfresh r hr h
      · exact hu2 r hr h
  have hfind1 : (s0.rows ++ [row1]).find? (fun r =>
      r.email == email || r.unsubscribeToken == u2) = some row1 := by
    rw [List.find?_append, hfind0']
    simp [hrow1]
  have hmap : ((s0.rows ++ [row1]).map fun r =>
      if r == row1 then { r with name := n2 } else r) = s0.rows ++ [row2] := by
    rw [List.map_append]
    congr 1
    · conv_rhs => rw [← List.map_id s0.rows]
      refine List.map_congr_left fun r hr => ?_
      have hne : r ≠ row1 := fun h => hfresh r hr (by rw [h, hrow1])
      simp [beq_eq_false_iff_ne.mpr hne]
    · simp [hrow1, hrow2]
  have hfind0e : s0.rows.find? (fun r => r.email == email) = none :=
    List.find?_eq_none.mpr fun r hr => by simpa using hfresh r hr
  have hfind2 : (s0.rows ++ [row2]).find? (fun r => r.email == email) = some row2 := by
    rw [List.find?_append, hfind0e]
    simp [hrow2]
  have h2 : addSubscriber (addSubscriber s0 email n1 c1 u1 now1).1 email n2 c2 u2 now2 =
      (⟨s0.rows ++ [row2], s0.nextId + 1⟩, some s0.nextId) := by
    rw [h1]
    simp only [addSubscriber, hfind1, hmap, getSubscriberByEmail]
    simp [hfind2, hrow2]
  refine ⟨?_, by rw [h1], by rw [h2]⟩
  rw [h2]
  simp only [List.filter_append]
  rw [List.filter_eq_nil_iff.mpr fun r hr => by simpa using hfresh r hr]
  simp [hrow2]

/-- C5 witness: adding "a@x.com" twice to an empty registry with names
"A" then "B" and distinct token pairs leaves one row with name "B" and
the first call's tokens, and both calls return id 1. -/
theorem addSubscriber_upsert_spec_witness :
    ((addSubscriber (addSubscriber ⟨[], 1⟩ "a@x.com" (some "A") "c1" "u1" 0).1
        "a@x.com" (some "B") "c2" "u2" 5).1.rows.filter
        (fun r => r.email == "a@x.com") =
      [{ id := 1, email := "a@x.com", name := some "B", subscribedAt := 0,
         confirmed := false, confirmationToken := "c1", unsubscribeToken := "u1",
         active := true }])
    ∧ (addSubscriber ⟨[], 1⟩ "a@x.com" (some "A") "c1" "u1" 0).2 = some 1
    ∧ (addSubscriber (addSubscriber ⟨[], 1⟩ "a@x.com" (some "A") "c1" "u1" 0).1
        "a@x.com" (some "B") "c2" "u2" 5).2 = some 1 :=
  addSubscriber_upsert_spec ⟨[], 1⟩ "a@x.com" (some "A") (some "B") "c1" "u1"
    "c2" "u2" 0 5 (by simp) (by simp) (by simp) (by decide)

/-- C2: `add_article` called twice with the same source_url (fresh in the
initial state) leaves exactly one row for that url: its
wordpress_post_id/wordpress_url are the second call's values, its title,
source_name and tags are the first call's values, and both calls return
the internal id of that row. -/
theorem addArticle_upsert_spec (s0 : LedgerState) (url : String)
    (t1 t2 : String) (p1 p2 : Option Int) (w1 w2 : Option String)
    (sn1 sn2 : Option String) (tg1 tg2 : Option (List String)) (now1 now2 : Int)
    (hfresh : ∀ r ∈ s0.rows, r.sourceUrl ≠ url) (hid : 0 < s0.nextId) :
    ((addArticle (addArticle s0 t1 url p1 w1 sn1 tg1 now1).1 t2 url p2 w2 sn2 tg2 now2).1.rows.filter
        (fun r => r.sourceUrl == url) =
      [{ id := s0.nextId, title := t1, sourceUrl := url, wordpressPostId := p2,
         wordpressUrl := w2, publishedAt := now1, sourceName := sn1,
         tags := tagsToStr tg1 }])
    ∧ (addArticle s0 t1 url p1 w1 sn1 tg1 now1).2 = some s0.nextId
    ∧ (addArticle (addArticle s0 t1 url p1 w1 sn1 tg1 now1).1 t2 url p2 w2 sn2 tg2 now2).2 =
        some s0.nextId := by
  have hne0 : s0.nextId ≠ 0 := Nat.pos_iff_ne_zero.mp hid
  have hfind0 : s0.rows.find? (fun r => r.sourceUrl == url) = none :=
    List.find?_eq_none.mpr fun r hr => by simpa using hfresh r hr
  set row1 : ArticleRow :=
    { id := s0.nextId, title := t1, sourceUrl := url, wordpressPostId := p1,
      wordpressUrl := w1, publishedAt := now1, sourceName := sn1,
      tags := tagsToStr tg1 } with hrow1
  have h1 : addArticle s0 t1 url p1 w1 sn1 tg1 now1 =
      (⟨s0.rows ++ [row1], s0.nextId + 1⟩, some s0.nextId) := by
    simp [addArticle, hfind0, hne0, hrow1]
  set row2 : ArticleRow :=
    { id := s0.nextId, title := t1, sourceUrl := url, wordpressPostId := p2,
      wordpressUrl := w2, publishedAt := now1, sourceName := sn1,
      tags := tagsToStr tg1 } with hrow2
  have hfind1 : (s0.rows ++ [row1]).find? (fun r => r.sourceUrl == url) = some row1 := by
    rw [List.find?_append, hfind0]
    simp [hrow1]
  have hmap : ((s0.rows ++ [row1]).map fun r =>
      if r.sourceUrl == url then { r with wordpressPostId := p2, wordpressUrl := w2 }
      else r) = s0.rows ++ [row2] := by
    rw [List.map_append]
    congr 1
    · conv_rhs => rw [← List.map_id s0.rows]
      exact List.map_congr_left fun r hr => by
        simp [beq_eq_false_iff_ne.mpr (hfresh r hr)]
    · simp [hrow1, hrow2]
  have hfind2 : (s0.rows ++ [row2]).find? (fun r => r.sourceUrl == url) = some row2 := by
    rw [List.find?_append, hfind0]
    simp [hrow2]
  have h2 : addArticle (addArticle s0 t1 url p1 w1 sn1 tg1 now1).1 t2 url p2 w2 sn2 tg2 now2 =
      (⟨s0.rows ++ [row2], s0.nextId + 1⟩, some s0.nextId) := by
    rw [h1]
    simp only [addArticle, hfind1, hmap, getArticleByUrl]
    simp [hfind2, hrow2]
  refine ⟨?_, by rw [h1], by rw [h2]⟩
  rw [h2]
  simp only [List.filter_append]
  rw [List.filter_eq_nil_iff.mpr fun r hr => by simpa using hfresh r hr]
  simp [hrow2]

/-- C2 witness: recording url "http://x/1" twice in an empty ledger with
post ids 10 then 20 leaves one row with post id 20 and the first call's
title/source/tags, and both calls return id 1. -/
theorem addArticle_upsert_spec_witness :
    ((addArticle (addArticle ⟨[], 1⟩ "T1" "http://x/1" (some 10) (some "http://wp/10")
          (some "Src") (some ["a", "b"]) 0).1
        "T2" "http://x/1" (some 20) (some "http://wp/20") (some "Other") (some ["c"]) 5).1.rows.filter
        (fun r => r.sourceUrl == "http://x/1") =
      [{ id := 1, title := "T1", sourceUrl := "http://x/1", wordpressPostId := some 20,
         wordpressUrl := some "http://wp/20", publishedAt := 0, sourceName := some "Src",
         tags := tagsToStr (some ["a", "b"]) }])
    ∧ (addArticle ⟨[], 1⟩ "T1" "http://x/1" (some 10) (some "http://wp/10")
        (some "Src") (some ["a", "b"]) 0).2 = some 1
    ∧ (addArticle (addArticle ⟨[], 1⟩ "T1" "http://x/1" (some 10) (some "http://wp/10")
          (some "Src") (some ["a", "b"]) 0).1
        "T2" "http://x/1" (some 20) (some "http://wp/20") (some "Other") (some ["c"]) 5).2 =
        some 1 :=
  addArticle_upsert_spec ⟨[], 1⟩ "http://x/1" "T1" "T2" (some 10) (some 20)
    (some "http://wp/10") (some "http://wp/20") (some "Src") (some "Other")
    (some ["a", "b"]) (some ["c"]) 0 5 (by simp) (by decide)

/-! ### Properties of the url-deduplication loop -/

theorem dedupByUrl_sublist (seen : List String) (l : List Article) :
    List.Sublist (dedupByUrl seen l) l := by
  induction l generalizing seen with
  | nil => simp [dedupByUrl]
  | cons x rest ih =>
    simp only [dedupByUrl]
    by_cases hx : x.url ∈ seen
    · rw [if_pos hx]
      exact List.Sublist.cons x (ih seen)
    · rw [if_neg hx]
      exact List.Sublist.cons₂ x (ih _)

theorem dedupByUrl_mem_url_not_seen (seen : List String) (l : List Article) :
    ∀ a ∈ dedupByUrl seen l, a.url ∉ seen := by
  induction l generalizing seen with
  | nil => simp [dedupByUrl]
  | cons x rest ih =>
    intro a ha
    simp only [dedupByUrl] at ha
    by_cases hx : x.url ∈ seen
    · rw [if_pos hx] at ha
      exact ih seen a ha
    · rw [if_neg hx] at ha
      rcases List.mem_cons.mp ha with rfl | h
      · exact hx
      · exact fun hmem => (ih _ a h) (List.mem_cons_of_mem _ hmem)

theorem dedupByUrl_nodup (seen : List String) (l : List Article) :
    ((dedupByUrl seen l).map Article.url).Nodup := by
  induction l generalizing seen with
  | nil => simp [dedupByUrl]
  | cons x rest ih =>
    simp only [dedupByUrl]
    by_cases hx : x.url ∈ seen
    · rw [if_pos hx]
      exact ih seen
    · rw [if_neg hx]
      simp only [List.map_cons, List.nodup_cons]
      refine ⟨?_, ih _⟩
      intro hmem
      rcases List.mem_map.mp hmem with ⟨b, hb, hurl⟩
      refine (dedupByUrl_mem_url_not_seen _ _ b hb) ?_
      rw [hurl]
      exact List.mem_cons_self _ _

theorem dedupByUrl_complete (seen : List String) (l : List Article) (u : String)
    (hu : u ∈ l.map Article.url) (hseen : u ∉ seen) :
    u ∈ (dedupByUrl seen l).map Article.url := by
  induction l generalizing seen with
  | nil => simp at hu
  | cons x rest ih =>
    simp only [List.map_cons, List.mem_cons] at hu
    simp only [dedupByUrl]
    by_cases hx : x.url ∈ seen
    · rw [if_pos hx]
      rcases hu with rfl | hu'
      · exact absurd hx hseen
      · exact ih seen hu' hseen
    · rw [if_neg hx]
      simp only [List.map_cons, List.mem_cons]
      rcases hu with rfl | hu'
      · exact Or.inl rfl
      · by_cases hxu : u = x.url
        · exact Or.inl hxu
        · refine Or.inr (ih _ hu' ?_)
          intro hmem
          rcases List.mem_cons.mp hmem with h | h
          · exact hxu h
          · exact hseen h

theorem dedupByUrl_first_wins (seen : List String) (l : List Article)
    (hsorted : l.Pairwise (fun a b => b.publishedDate ≤ a.publishedDate)) :
    ∀ a ∈ dedupByUrl seen l, ∀ b ∈ l, b.url = a.url →
      b.publishedDate ≤ a.publishedDate := by
  induction l generalizing seen with
  | nil => simp [dedupByUrl]
  | cons x rest ih =>
    have hrest := hsorted.of_cons
    intro a ha b hb hurl
    simp only [dedupByUrl] at ha
    by_cases hx : x.url ∈ seen
    · rw [if_pos hx] at ha
      rcases List.mem_cons.mp hb with rfl | hb'
      · exact absurd (hurl ▸ hx) (dedupByUrl_mem_url_not_seen seen rest a ha)
      · exact ih seen hrest a ha b hb' hurl
    · rw [if_neg hx] at ha
      rcases List.mem_cons.mp ha with rfl | ha'
      · rcases List.mem_cons.mp hb with rfl | hb'
        · exact le_refl _
        · exact (List.pairwise_cons.mp hsorted).1 b hb'
      · rcases List.mem_cons.mp hb with rfl | hb'
        · refine absurd ?_ (dedupByUrl_mem_url_not_seen _ _ a ha')
          rw [← hurl]
          exact List.mem_cons_self _ _
        · exact ih _ hrest a ha' b hb' hurl

/-! ### The sort comparison is transitive and total -/

theorem dateDesc_trans : ∀ a b c : Article, dateDesc a b → dateDesc b c → dateDesc a c := by
  intro a b c hab hbc
  simp only [dateDesc, decide_eq_true_eq] at *
  exact le_trans hbc hab

theorem dateDesc_total : ∀ a b : Article, dateDesc a b || dateDesc b a := by
  intro a b
  simp only [dateDesc, Bool.or_eq_true, decide_eq_true_eq]
  exact le_total b.publishedDate a.publishedDate

theorem mergeSort_dateDesc_pairwise (l : List Article) :
    (l.mergeSort dateDesc).Pairwise
      (fun a b => b.publishedDate ≤ a.publishedDate) := by
  have h := List.sorted_mergeSort dateDesc_trans dateDesc_total l
  exact h.imp fun hab => by simpa [dateDesc] using hab

/-- C3: the Feed Fetcher's output contains each url at most once; every
retained article comes from the collected entries, and its publish
timestamp is maximal among all collected articles with the same url; the
output is sorted newest-first; its length is at most `max_articles`; and
whenever the deduplicated list fits under the cap, every collected url
appears (so each distinct url appears exactly once). -/
theorem fetchArticles_dedup_sorted_capped (feeds : List Feed) (now maxAgeHours : Int)
    (maxArticles : Nat) :
    ((fetchArticles feeds now maxAgeHours maxArticles).map Article.url).Nodup
    ∧ (fetchArticles feeds now maxAgeHours maxArticles).length ≤ maxArticles
    ∧ (fetchArticles feeds now maxAgeHours maxArticles).Pairwise
        (fun a b => b.publishedDate ≤ a.publishedDate)
    ∧ (∀ a ∈ fetchArticles feeds now maxAgeHours maxArticles,
        a ∈ collectArticles feeds now maxAgeHours
        ∧ ∀ b ∈ collectArticles feeds now maxAgeHours,
            b.url = a.url → b.publishedDate ≤ a.publishedDate)
    ∧ ((dedupByUrl [] ((collectArticles feeds now maxAgeHours).mergeSort dateDesc)).length
          ≤ maxArticles →
        ∀ u ∈ (collectArticles feeds now maxAgeHours).map Article.url,
          u ∈ (fetchArticles feeds now maxAgeHours maxArticles).map Article.url) := by
  set L := collectArticles feeds now maxAgeHours with hL
  set S := L.mergeSort dateDesc with hS
  set D := dedupByUrl [] S with hD
  have hout : fetchArticles feeds now maxAgeHours maxArticles = D.take maxArticles := rfl
  have hDS : List.Sublist D S := dedupByUrl_sublist [] S
  have hperm : List.Perm S L := List.mergeSort_perm L dateDesc
  have hSsorted : S.Pairwise (fun a b => b.publishedDate ≤ a.publishedDate) :=
    mergeSort_dateDesc_pairwise L
  refine ⟨?_, ?_, ?_, ?_, ?_⟩
  · rw [hout, List.map_take]
    exact (dedupByUrl_nodup [] S).sublist (List.take_sublist _ _)
  · rw [hout]
    exact List.length_take_le _ _
  · rw [hout]
    exact (hSsorted.sublist hDS).sublist (List.take_sublist _ _)
  · intro a ha
    rw [hout] at ha
    have haD : a ∈ D := List.mem_of_mem_take ha
    have haS : a ∈ S := hDS.subset haD
    refine ⟨hperm.mem_iff.mp haS, ?_⟩
    intro b hb hurl
    exact dedupByUrl_first_wins [] S hSsorted a haD b (hperm.mem_iff.mpr hb) hurl
  · intro hlen u hu
    rw [hout, List.take_of_length_le hlen]
    have huS : u ∈ S.map Article.url := ((hperm.map Article.url).mem_iff).mpr hu
    exact dedupByUrl_complete [] S u huS (by simp)

/-- C4: every collected entry whose parsed publish timestamp is strictly
before the cutoff `now - max_age_hours` is absent from `fetch_articles`'s
output, and conversely every article in the output has a publish
timestamp at or after the cutoff. -/
theorem fetchArticles_age_cutoff (feeds : List Feed) (now maxAgeHours : Int)
    (maxArticles : Nat) (f : Feed) (e : Entry) (hf : f ∈ feeds)
    (he : e ∈ f.entries)
    (hold : parseDate e now < now - 3600 * maxAgeHours) :
    entryToArticle e (f.title.getD f.url) now ∉
      fetchArticles feeds now maxAgeHours maxArticles
    ∧ ∀ a ∈ fetchArticles feeds now maxAgeHours maxArticles,
        now - 3600 * maxAgeHours ≤ a.publishedDate := by
  have hbound : ∀ a ∈ fetchArticles feeds now maxAgeHours maxArticles,
      now - 3600 * maxAgeHours ≤ a.publishedDate := by
    intro a ha
    have haD : a ∈ dedupByUrl [] ((collectArticles feeds now maxAgeHours).mergeSort dateDesc) :=
      List.mem_of_mem_take ha
    have haS := (dedupByUrl_sublist [] _).subset haD
    have haL : a ∈ collectArticles feeds now maxAgeHours :=
      (List.mergeSort_perm _ dateDesc).mem_iff.mp haS
    rw [collectArticles, List.mem_flatten] at haL
    rcases haL with ⟨arts, harts, hamem⟩
    rcases List.mem_map.mp harts with ⟨f', _, rfl⟩
    rw [fetchFeed] at hamem
    rcases List.mem_map.mp hamem with ⟨e', he', rfl⟩
    have := (List.mem_filter.mp he').2
    simp only [decide_eq_true_eq] at this
    exact this
  refine ⟨?_, hbound⟩
  intro hmem
  have := hbound _ hmem
  have hdate : (entryToArticle e (f.title.getD f.url) now).publishedDate = parseDate e now := rfl
  rw [hdate] at this
  omega

/-- C4 witness: a concrete entry dated far before a 24-hour cutoff is
absent from the concrete feed's fetched articles. -/
theorem fetchArticles_age_cutoff_witness :
    entryToArticle ⟨some "Old", some "http://x/old", none, none, some 0, none, none, none, []⟩
        ((some "F" : Option String).getD "http://feed") 1000000 ∉
      fetchArticles [⟨some "F", "http://feed",
        [⟨some "Old", some "http://x/old", none, none, some 0, none, none, none, []⟩]⟩]
        1000000 24 10
    ∧ ∀ a ∈ fetchArticles [⟨some "F", "http://feed",
        [⟨some "Old", some "http://x/old", none, none, some 0, none, none, none, []⟩]⟩]
        1000000 24 10,
        1000000 - 3600 * 24 ≤ a.publishedDate :=
  fetchArticles_age_cutoff _ 1000000 24 10 _ _ (List.mem_singleton.mpr rfl)
    (List.mem_singleton.mpr rfl) (by decide)

end ContentAutomation
